import Mathlib

/-!
# huddleUp — call lifecycle and meeting negotiation, verified

Shallow embedding of the backend handlers in `src/convex/calls.ts` and
`src/convex/calendar.ts`.  The Convex document store is modeled as
association lists from document ids (`Nat`) to records; each handler
is a pure function from a database value (plus the authenticated
caller's user id, the handler arguments and the current timestamp) to
`Except String (db' × result)`, mirroring the handler's throw/return
behaviour.  Timestamps are epoch milliseconds, modeled as `Int`.
-/

/-- Association-list lookup: first binding wins (Convex `get` by id). -/
def lookupA {α : Type} : List (Nat × α) → Nat → Option α
  | [], _ => none
  | p :: t, k => if p.1 = k then some p.2 else lookupA t k

/-- Rewrite every value in place, with access to its key. -/
def mapVals {α : Type} (l : List (Nat × α)) (h : Nat → α → α) : List (Nat × α) :=
  l.map (fun p => (p.1, h p.1 p.2))

/-- Convex `db.patch k v` (here: full-record replacement at key `k`). -/
def setA {α : Type} (l : List (Nat × α)) (k : Nat) (v : α) : List (Nat × α) :=
  mapVals l (fun i x => if i = k then v else x)

/-- `status` field of a call: `ringing | active | ended | missed`. -/
inductive CallStatus
  | ringing
  | active
  | ended
  | missed
deriving DecidableEq, Repr

/-- `type` field of a call: `audio | video`. -/
inductive CallType
  | audio
  | video
deriving DecidableEq, Repr

/-- `presenceStatus` values from the schema. -/
inductive Presence
  | active
  | away
  | busy
  | inCall
  | offline
deriving DecidableEq, Repr

/-- A row of the `calls` table. -/
structure Call where
  conversationId : Option Nat
  groupId : Option Nat
  initiatorId : Nat
  type : CallType
  status : CallStatus
  roomName : String
  createdAt : Int
  startedAt : Option Int := none
  endedAt : Option Int := none
  duration : Option Int := none
deriving DecidableEq, Repr

/-- A row of the `callParticipants` table. -/
structure CallParticipant where
  callId : Nat
  userId : Nat
  joinedAt : Int
  leftAt : Option Int := none
deriving DecidableEq, Repr

/-- A row of the `users` table (the fields the call handlers touch). -/
structure UserRec where
  name : Option String := none
  email : String := ""
  presenceStatus : Presence
deriving DecidableEq, Repr

/-- A row of the `messages` table (the fields the call handlers write). -/
structure Message where
  senderId : Nat
  content : String
  conversationId : Option Nat
  groupId : Option Nat
  type : String
  callDuration : Option Int := none
  isDeleted : Bool
  createdAt : Int
deriving DecidableEq, Repr

/-- A row of the `directConversations` table. -/
structure Conversation where
  participant1Id : Nat
  participant2Id : Nat
deriving DecidableEq, Repr

/-- The slice of the Convex database the call handlers read and write.
`groupMembers` holds `(groupId, userId)` pairs; `nextId` is the next
document id the store will hand out (inserts append, so ids grow). -/
structure DB where
  users : List (Nat × UserRec)
  conversations : List (Nat × Conversation)
  groupMembers : List (Nat × Nat)
  calls : List (Nat × Call)
  callParticipants : List (Nat × CallParticipant)
  messages : List Message
  nextId : Nat
deriving DecidableEq, Repr

/-- `formatDuration` from calls.ts: milliseconds to `"Hh Mm" / "Mm Ss" / "Ss"`.
`Math.floor` division is `Int.fdiv`. -/
def formatDuration (ms : Int) : String :=
  let seconds := Int.fdiv ms 1000
  let minutes := Int.fdiv seconds 60
  let hours := Int.fdiv minutes 60
  if hours > 0 then
    toString hours ++ "h " ++ toString (minutes % 60) ++ "m"
  else if minutes > 0 then
    toString minutes ++ "m " ++ toString (seconds % 60) ++ "s"
  else
    toString seconds ++ "s"

/-- `call.startedAt ? now - call.startedAt : 0` — JavaScript truthiness makes a
zero timestamp fall back to `0` as well. -/
def callDurationOf (startedAt : Option Int) (now : Int) : Int :=
  match startedAt with
  | some s => if s = 0 then 0 else now - s
  | none => 0

/-- `createCallRecord` (internal mutation): insert the call in `ringing`,
insert the initiator as first participant, set the initiator's presence to
`inCall`.  The initiator is identified by the caller's user record (the
source resolves it from the identity's email). -/
def createCallRecord (db : DB) (conversationId groupId : Option Nat)
    (type : CallType) (roomName : String) (initiatorId : Nat) (now : Int) :
    Except String (DB × Nat) :=
  match lookupA db.users initiatorId with
  | none => .error "User not found"
  | some u =>
    let callId := db.nextId
    let call : Call :=
      { conversationId := conversationId
        groupId := groupId
        initiatorId := initiatorId
        type := type
        status := .ringing
        roomName := roomName
        createdAt := now }
    let part : CallParticipant :=
      { callId := callId, userId := initiatorId, joinedAt := now }
    let calls' := db.calls ++ [(callId, call)]
    let participants' := db.callParticipants ++ [(db.nextId + 1, part)]
    let users' := setA db.users initiatorId ({ u with presenceStatus := .inCall })
    let db' : DB :=
      { db with
        calls := calls'
        callParticipants := participants'
        users := users'
        nextId := db.nextId + 2 }
    .ok (db', callId)

/-- `createCall` (action): validates the target, then delegates to
`createCallRecord`.  LiveKit token minting is an external media-SDK effect
and is not modeled; the returned value is the new call id. -/
def createCall (db : DB) (initiatorId : Nat) (conversationId groupId : Option Nat)
    (type : CallType) (roomName : String) (now : Int) : Except String (DB × Nat) :=
  if conversationId = none ∧ groupId = none then
    .error "Must specify either conversationId or groupId"
  else
    createCallRecord db conversationId groupId type roomName initiatorId now

/-- The access check of `joinCall`: conversation participation when the call
targets a conversation, group membership when it targets a group. -/
def callAccess (db : DB) (call : Call) (userId : Nat) : Except String Unit :=
  match call.conversationId with
  | some cid =>
    match lookupA db.conversations cid with
    | some conv =>
      if conv.participant1Id = userId ∨ conv.participant2Id = userId then .ok ()
      else .error "Not authorized to join this call"
    | none => .error "Not authorized to join this call"
  | none =>
    match call.groupId with
    | some gid =>
      if (gid, userId) ∈ db.groupMembers then .ok ()
      else .error "Not authorized to join this call"
    | none => .ok ()

/-- `addParticipant` (the mutation behind `joinCall`): reject terminal calls,
authorize by conversation participation or group membership, insert or
rejoin the participant row, move a `ringing` call to `active` stamping
`startedAt`, and set the caller's presence to `inCall`. -/
def addParticipant (db : DB) (userId : Nat) (callId : Nat) (now : Int) :
    Except String (DB × String) :=
  match lookupA db.calls callId with
  | none => .error "Call not found"
  | some call =>
    if call.status = .ended ∨ call.status = .missed then
      .error "Call has already ended"
    else
      match lookupA db.users userId with
      | none => .error "User not found"
      | some user =>
        match callAccess db call userId with
        | .error e => .error e
        | .ok _ =>
          let db1 : DB :=
            match db.callParticipants.find?
                (fun p => p.2.callId = callId ∧ p.2.userId = userId) with
            | none =>
              let newPart : CallParticipant := { callId := callId, userId := userId, joinedAt := now }
              let participants' := db.callParticipants ++ [(db.nextId, newPart)]
              { db with callParticipants := participants', nextId := db.nextId + 1 }
            | some (pid, p) =>
              if p.leftAt.isSome then
                let participants' := setA db.callParticipants pid ({ p with joinedAt := now, leftAt := none })
                { db with callParticipants := participants' }
              else db
          let db2 : DB :=
            if call.status = .ringing then
              let calls' := setA db1.calls callId ({ call with status := .active, startedAt := some now })
              { db1 with calls := calls' }
            else db1
          let db3 : DB :=
            { db2 with users := setA db2.users userId ({ user with presenceStatus := .inCall }) }
          .ok (db3, call.roomName)

/-- `leaveCall` (mutation): stamp the caller's participant row with `leftAt`
(no-op if absent or already left), set the caller's presence back to
`active`, and if no active participant remains on an `active` call, end it
and insert the duration system message. -/
def leaveCall (db : DB) (userId : Nat) (callId : Nat) (now : Int) :
    Except String (DB × Nat) :=
  match lookupA db.users userId with
  | none => .error "User not found"
  | some user =>
    match lookupA db.calls callId with
    | none => .error "Call not found"
    | some call =>
      let db1 : DB :=
        match db.callParticipants.find?
            (fun p => p.2.callId = callId ∧ p.2.userId = userId) with
        | some (pid, p) =>
          if p.leftAt = none then
            let participants' := setA db.callParticipants pid ({ p with leftAt := some now })
            { db with callParticipants := participants' }
          else db
        | none => db
      let db2 : DB :=
        { db1 with users := setA db1.users userId ({ user with presenceStatus := .active }) }
      let activeParticipants :=
        db2.callParticipants.filter (fun p => p.2.callId = callId ∧ p.2.leftAt = none)
      if activeParticipants.length = 0 ∧ call.status = .active then
        let duration := callDurationOf call.startedAt now
        let endedCall : Call :=
          { call with status := .ended, endedAt := some now, duration := some duration }
        let db3 : DB := { db2 with calls := setA db2.calls callId endedCall }
        let durationMsg : Message :=
          { senderId := call.initiatorId
            content := "Call ended - Duration: " ++ formatDuration duration
            conversationId := call.conversationId
            groupId := call.groupId
            type := "call"
            callDuration := some duration
            isDeleted := false
            createdAt := now }
        let db4 : DB :=
          if call.conversationId.isSome ∨ call.groupId.isSome then
            { db3 with messages := db3.messages ++ [durationMsg] }
          else db3
        .ok (db4, callId)
      else
        .ok (db2, callId)

/-- `endCall` (mutation): early-return on `ended`; otherwise force-terminate
(`ringing` becomes `missed` without a duration, anything else becomes
`ended` with a duration), mark every still-joined participant as left,
restore presence of participants who were `inCall`, and insert the
duration / missed-call system message. -/
def endCall (db : DB) (callId : Nat) (now : Int) : Except String (DB × Nat) :=
  match lookupA db.calls callId with
  | none => .error "Call not found"
  | some call =>
    if call.status = .ended then
      .ok (db, callId)
    else
      let duration := callDurationOf call.startedAt now
      let finalStatus : CallStatus := if call.status = .ringing then .missed else .ended
      let finalCall : Call :=
        { call with
          status := finalStatus
          endedAt := some now
          duration := if finalStatus = .ended then some duration else none }
      let db1 : DB := { db with calls := setA db.calls callId finalCall }
      let participants' := mapVals db1.callParticipants (fun _ p =>
        if p.callId = callId ∧ p.leftAt = none then { p with leftAt := some now } else p)
      let db2 : DB := { db1 with callParticipants := participants' }
      let users' := mapVals db2.users (fun uid u =>
        if (db.callParticipants.any (fun p => p.2.callId = callId ∧ p.2.userId = uid)) ∧
            u.presenceStatus = .inCall
        then { u with presenceStatus := .active } else u)
      let db3 : DB := { db2 with users := users' }
      let endedMsg : Message :=
        { senderId := call.initiatorId
          content := "Call ended - Duration: " ++ formatDuration duration
          conversationId := call.conversationId
          groupId := call.groupId
          type := "call"
          callDuration := some duration
          isDeleted := false
          createdAt := now }
      let missedMsg : Message :=
        { senderId := call.initiatorId
          content := "Missed call"
          conversationId := call.conversationId
          groupId := call.groupId
          type := "call"
          isDeleted := false
          createdAt := now }
      let db4 : DB :=
        if finalStatus = .ended ∧ (call.conversationId.isSome ∨ call.groupId.isSome) then
          { db3 with messages := db3.messages ++ [endedMsg] }
        else if finalStatus = .missed ∧ (call.conversationId.isSome ∨ call.groupId.isSome) then
          { db3 with messages := db3.messages ++ [missedMsg] }
        else db3
      .ok (db4, callId)

/-- JavaScript `String.prototype.trim`, modeled on the character list so that
it evaluates by kernel reduction (core `String.trim` works on UTF-8 byte
positions and does not reduce). -/
def strTrim (s : String) : String :=
  ⟨((s.data.dropWhile Char.isWhitespace).reverse.dropWhile Char.isWhitespace).reverse⟩

/-- Status of a meeting request or meeting update request. -/
inductive ReqStatus
  | pending
  | approved
  | denied
deriving DecidableEq, Repr

/-- The `approved`/`denied` argument of the respond mutations. -/
inductive Decision
  | approved
  | denied
deriving DecidableEq, Repr

/-- The stored status a decision patches in. -/
def Decision.toStatus : Decision → ReqStatus
  | .approved => .approved
  | .denied => .denied

/-- A row of the `calendarEvents` table. -/
structure CalendarEvent where
  userId : Nat
  title : String
  description : Option String := none
  startTime : Int
  endTime : Int
  isAllDay : Bool
  isPublic : Bool
  meetingRequestId : Option Nat := none
  createdAt : Int
  updatedAt : Option Int := none
deriving DecidableEq, Repr

/-- A row of the `meetingRequests` table. -/
structure MeetingRequest where
  requesterId : Nat
  recipientId : Nat
  title : String
  description : Option String := none
  proposedStartTime : Int
  proposedEndTime : Int
  status : ReqStatus
  responseMessage : Option String := none
  respondedAt : Option Int := none
  eventId : Option Nat := none
  createdAt : Int
deriving DecidableEq, Repr

/-- A row of the `meetingUpdateRequests` table. -/
structure MeetingUpdateRequest where
  meetingRequestId : Nat
  requestedByUserId : Nat
  respondentUserId : Nat
  proposedTitle : String
  proposedDescription : Option String := none
  proposedStartTime : Int
  proposedEndTime : Int
  proposedIsAllDay : Bool
  proposedIsPublic : Bool
  status : ReqStatus
  responseMessage : Option String := none
  respondedAt : Option Int := none
  createdAt : Int
deriving DecidableEq, Repr

/-- A row of the `users` table as seen by the calendar handlers. -/
structure CalUser where
  name : Option String := none
  email : String := ""
deriving DecidableEq, Repr

/-- The slice of the Convex database the calendar handlers read and write. -/
structure CalDB where
  users : List (Nat × CalUser)
  events : List (Nat × CalendarEvent)
  meetingRequests : List (Nat × MeetingRequest)
  updateRequests : List (Nat × MeetingUpdateRequest)
  nextId : Nat
deriving DecidableEq, Repr

/-- Arguments of `createEvent`. -/
structure CreateEventArgs where
  title : String
  description : Option String := none
  startTime : Int
  endTime : Int
  isAllDay : Option Bool := none
  isPublic : Option Bool := none
deriving DecidableEq, Repr

/-- Arguments of `updateEvent` (all optional patch fields). -/
structure UpdateEventArgs where
  title : Option String := none
  description : Option String := none
  startTime : Option Int := none
  endTime : Option Int := none
  isAllDay : Option Bool := none
  isPublic : Option Bool := none
deriving DecidableEq, Repr

/-- What `updateEvent` returns: the patched event id on the solo path, or the
requires-approval result on the linked path. -/
inductive UpdateResult
  | applied (eventId : Nat)
  | requiresApproval (message : String)
deriving DecidableEq, Repr

/-- `createEvent` (mutation): validate `endTime > startTime` and a non-empty
trimmed title, then insert the event. -/
def createEvent (db : CalDB) (userId : Nat) (args : CreateEventArgs) (now : Int) :
    Except String (CalDB × Nat) :=
  match lookupA db.users userId with
  | none => .error "User not found"
  | some _ =>
    if args.endTime ≤ args.startTime then
      .error "End time must be after start time"
    else if (strTrim args.title).length = 0 then
      .error "Title cannot be empty"
    else
      let ev : CalendarEvent :=
        { userId := userId
          title := strTrim args.title
          description := args.description.map strTrim
          startTime := args.startTime
          endTime := args.endTime
          isAllDay := args.isAllDay.getD false
          isPublic := args.isPublic.getD false
          createdAt := now }
      .ok ({ db with events := db.events ++ [(db.nextId, ev)], nextId := db.nextId + 1 }, db.nextId)

/-- The linked-path proposed title: the trimmed argument when supplied, the
event's current title otherwise — with the JavaScript `|| event.title`
fallback when the trimmed argument is empty. -/
def mergedTitle (args : UpdateEventArgs) (event : CalendarEvent) : String :=
  let t := match args.title with | some s => strTrim s | none => event.title
  if t = "" then event.title else t

/-- `updateEvent` (mutation).  A linked event (with `meetingRequestId`) is never
patched directly: with no pending update request outstanding, the merged
proposed field set is validated and inserted as a `pending`
`MeetingUpdateRequest` for the other meeting participant, and a
requires-approval result is returned.  A solo event is patched in place after
re-validating.  The `proposedTitle` computation reproduces the source,
including the JavaScript `|| event.title` fallback on an empty trimmed title.
Notification scheduling is an external scheduler effect and is not modeled. -/
def updateEvent (db : CalDB) (userId : Nat) (eventId : Nat) (args : UpdateEventArgs)
    (now : Int) : Except String (CalDB × UpdateResult) :=
  match lookupA db.users userId with
  | none => .error "User not found"
  | some _user =>
    match lookupA db.events eventId with
    | none => .error "Event not found"
    | some event =>
      if event.userId ≠ userId then
        .error "Not authorized to update this event"
      else
        match event.meetingRequestId with
        | some mid =>
          match lookupA db.meetingRequests mid with
          | none => .error "Meeting not found"
          | some meetingRequest =>
            let respondentId :=
              if meetingRequest.requesterId = userId then meetingRequest.recipientId
              else meetingRequest.requesterId
            match db.updateRequests.find?
                (fun p => p.2.meetingRequestId = mid ∧ p.2.status = .pending) with
            | some _ =>
              .error "You already have a pending update request for this meeting. Wait for the other participant to approve or deny it."
            | none =>
              let proposedTitle := mergedTitle args event
              if proposedTitle.length = 0 then
                .error "Title cannot be empty"
              else
                let proposedStartTime := args.startTime.getD event.startTime
                let proposedEndTime := args.endTime.getD event.endTime
                if proposedEndTime ≤ proposedStartTime then
                  .error "End time must be after start time"
                else
                  let ur : MeetingUpdateRequest :=
                    { meetingRequestId := mid
                      requestedByUserId := userId
                      respondentUserId := respondentId
                      proposedTitle := proposedTitle
                      proposedDescription :=
                        match args.description with
                        | some d => some (strTrim d)
                        | none => event.description
                      proposedStartTime := proposedStartTime
                      proposedEndTime := proposedEndTime
                      proposedIsAllDay := args.isAllDay.getD event.isAllDay
                      proposedIsPublic := args.isPublic.getD event.isPublic
                      status := .pending
                      createdAt := now }
                  let respondentName :=
                    match lookupA db.users respondentId with
                    | some r => match r.name with | some n => n | none => r.email
                    | none => "The other participant"
                  let msg := respondentName ++ " must approve the change before it takes effect. They have been notified."
                  let updateRequests' := db.updateRequests ++ [(db.nextId, ur)]
                  let db' : CalDB :=
                    { db with updateRequests := updateRequests', nextId := db.nextId + 1 }
                  .ok (db', .requiresApproval msg)
        | none =>
          let titleEmpty : Bool :=
            match args.title with | some s => (strTrim s).length == 0 | none => false
          if titleEmpty then
            .error "Title cannot be empty"
          else
            let newStartTime := args.startTime.getD event.startTime
            let newEndTime := args.endTime.getD event.endTime
            if newEndTime ≤ newStartTime then
              .error "End time must be after start time"
            else
              let event' : CalendarEvent :=
                { userId := event.userId
                  title := match args.title with | some s => strTrim s | none => event.title
                  description :=
                    match args.description with
                    | some d => some (strTrim d)
                    | none => event.description
                  startTime := newStartTime
                  endTime := newEndTime
                  isAllDay := args.isAllDay.getD event.isAllDay
                  isPublic := args.isPublic.getD event.isPublic
                  meetingRequestId := event.meetingRequestId
                  createdAt := event.createdAt
                  updatedAt := some now }
              .ok ({ db with events := setA db.events eventId event' }, .applied eventId)

/-- `respondToRequest` (mutation): only the recipient, only while `pending`.
On approval, insert the recipient's calendar event first, then the
requester's, both linked through `meetingRequestId`, and back-fill the
request's `eventId` with the recipient's event id. -/
def respondToRequest (db : CalDB) (userId : Nat) (requestId : Nat) (status : Decision)
    (responseMessage : Option String) (now : Int) : Except String (CalDB × Nat) :=
  match lookupA db.users userId with
  | none => .error "User not found"
  | some _ =>
    match lookupA db.meetingRequests requestId with
    | none => .error "Meeting request not found"
    | some request =>
      if request.recipientId ≠ userId then
        .error "Not authorized to respond to this request"
      else if request.status ≠ .pending then
        .error "Request has already been responded to"
      else
        let request1 : MeetingRequest :=
          { request with
            status := status.toStatus
            responseMessage := responseMessage.map strTrim
            respondedAt := some now }
        let db1 : CalDB := { db with meetingRequests := setA db.meetingRequests requestId request1 }
        match status with
        | .denied => .ok (db1, requestId)
        | .approved =>
          let recipientEventId := db1.nextId
          let recipientEvent : CalendarEvent :=
            { userId := userId
              title := request.title
              description := request.description
              startTime := request.proposedStartTime
              endTime := request.proposedEndTime
              isAllDay := false
              isPublic := false
              meetingRequestId := some requestId
              createdAt := now }
          let requesterEventId := db1.nextId + 1
          let requesterEvent : CalendarEvent :=
            { userId := request.requesterId
              title := request.title
              description := request.description
              startTime := request.proposedStartTime
              endTime := request.proposedEndTime
              isAllDay := false
              isPublic := false
              meetingRequestId := some requestId
              createdAt := now }
          let events' := db1.events ++ [(recipientEventId, recipientEvent), (requesterEventId, requesterEvent)]
          let db2 : CalDB := { db1 with events := events', nextId := db1.nextId + 2 }
          let request2 : MeetingRequest := { request1 with eventId := some recipientEventId }
          let db3 : CalDB := { db2 with meetingRequests := setA db2.meetingRequests requestId request2 }
          .ok (db3, requestId)

/-- `respondToMeetingUpdate` (mutation): only the named respondent, only while
`pending`.  On approval every calendar event carrying the meeting's
`meetingRequestId` is patched with the identical proposed field set; on
denial no event is touched.  Either way the update request is patched to the
terminal status. -/
def respondToMeetingUpdate (db : CalDB) (userId : Nat) (updateRequestId : Nat)
    (status : Decision) (responseMessage : Option String) (now : Int) :
    Except String (CalDB × Nat) :=
  match lookupA db.updateRequests updateRequestId with
  | none => .error "Meeting update request not found"
  | some ur =>
    if ur.respondentUserId ≠ userId then
      .error "Not authorized to respond to this update request"
    else if ur.status ≠ .pending then
      .error "This update request has already been responded to"
    else
      let db1 : CalDB :=
        match status with
        | .approved =>
          let events' := mapVals db.events (fun _ ev =>
            if ev.meetingRequestId = some ur.meetingRequestId then
              { ev with
                title := ur.proposedTitle
                description := ur.proposedDescription
                startTime := ur.proposedStartTime
                endTime := ur.proposedEndTime
                isAllDay := ur.proposedIsAllDay
                isPublic := ur.proposedIsPublic
                updatedAt := some now }
            else ev)
          { db with events := events' }
        | .denied => db
      let ur' : MeetingUpdateRequest :=
        { ur with
          status := status.toStatus
          responseMessage := responseMessage.map strTrim
          respondedAt := some now }
      let db2 : CalDB := { db1 with updateRequests := setA db1.updateRequests updateRequestId ur' }
      .ok (db2, updateRequestId)

/-- Number of `pending` meeting update requests attached to one meeting. -/
def pendingUpdateCount (db : CalDB) (mid : Nat) : Nat :=
  (db.updateRequests.filter (fun p => p.2.meetingRequestId = mid ∧ p.2.status = .pending)).length

/-- The invariant of claim C5: at most one pending update request per meeting. -/
def PendingUnique (db : CalDB) : Prop :=
  ∀ mid, pendingUpdateCount db mid ≤ 1

/-- One successful backend mutation on the call database: any of the four
call-lifecycle handlers, with arbitrary caller, arguments and timestamp. -/
inductive CallStep : DB → DB → Prop
  | create {db : DB} {initiatorId : Nat} {conversationId groupId : Option Nat}
      {type : CallType} {roomName : String} {now : Int} {db' : DB} {r : Nat}
      (h : createCall db initiatorId conversationId groupId type roomName now = .ok (db', r)) :
      CallStep db db'
  | join {db : DB} {userId callId : Nat} {now : Int} {db' : DB} {r : String}
      (h : addParticipant db userId callId now = .ok (db', r)) : CallStep db db'
  | leave {db : DB} {userId callId : Nat} {now : Int} {db' : DB} {r : Nat}
      (h : leaveCall db userId callId now = .ok (db', r)) : CallStep db db'
  | finish {db : DB} {callId : Nat} {now : Int} {db' : DB} {r : Nat}
      (h : endCall db callId now = .ok (db', r)) : CallStep db db'

/-- The transition relation claim C2 asserts, written from the spec's words:
only `ringing → active → ended` and `ringing → missed` (or staying put). -/
def specClaimedTransition (s s' : CallStatus) : Prop :=
  s = s' ∨ (s = .ringing ∧ s' = .active) ∨ (s = .ringing ∧ s' = .missed) ∨
    (s = .active ∧ s' = .ended)

/-- The transition relation the code actually implements: the claimed chains
plus `missed → ended`, reachable through `endCall` on a missed call. -/
def codeTransition (s s' : CallStatus) : Prop :=
  specClaimedTransition s s' ∨ (s = .missed ∧ s' = .ended)

instance (s s' : CallStatus) : Decidable (specClaimedTransition s s') := by
  unfold specClaimedTransition; infer_instance

instance (s s' : CallStatus) : Decidable (codeTransition s s') := by
  unfold codeTransition; infer_instance

/-- Concrete user: presence `busy`, about to be overwritten by `leaveCall`. -/
def exUser : UserRec := { presenceStatus := .busy }

/-- Concrete call stuck in the terminal `missed` status. -/
def exCallMissed : Call :=
  { conversationId := some 1, groupId := none, initiatorId := 10,
    type := .video, status := .missed, roomName := "r", createdAt := 0 }

/-- Concrete database holding the missed call `100`. -/
def exDB1 : DB :=
  { users := [(10, exUser), (11, { presenceStatus := .inCall })]
    conversations := [(1, { participant1Id := 10, participant2Id := 11 })]
    groupMembers := []
    calls := [(100, exCallMissed)]
    callParticipants := []
    messages := []
    nextId := 200 }

/-- The database `endCall` produces from `exDB1`: the missed call has been
re-terminated to `ended` and a duration message has been inserted. -/
def exDB1' : DB :=
  { users := [(10, exUser), (11, { presenceStatus := .inCall })]
    conversations := [(1, { participant1Id := 10, participant2Id := 11 })]
    groupMembers := []
    calls := [(100, { exCallMissed with status := .ended, endedAt := some 5, duration := some 0 })]
    callParticipants := []
    messages := [{ senderId := 10, content := "Call ended - Duration: 0s",
                   conversationId := some 1, groupId := none, type := "call",
                   callDuration := some 0, isDeleted := false, createdAt := 5 }]
    nextId := 200 }

/-- Active call used by the leave-call scenarios: started at 50. -/
def exCallActive : Call :=
  { conversationId := some 1, groupId := none, initiatorId := 10,
    type := .audio, status := .active, roomName := "r2", createdAt := 40,
    startedAt := some 50 }

/-- Two active participants (rows 300 and 301) on the active call `100`. -/
def exDBtwo : DB :=
  { users := [(10, exUser), (11, { presenceStatus := .inCall })]
    conversations := [(1, { participant1Id := 10, participant2Id := 11 })]
    groupMembers := []
    calls := [(100, exCallActive)]
    callParticipants := [(300, { callId := 100, userId := 10, joinedAt := 50 }),
                         (301, { callId := 100, userId := 11, joinedAt := 55 })]
    messages := []
    nextId := 400 }

/-- A single active participant (row 300) on the active call `100`. -/
def exDBone : DB :=
  { users := [(10, exUser), (11, { presenceStatus := .inCall })]
    conversations := [(1, { participant1Id := 10, participant2Id := 11 })]
    groupMembers := []
    calls := [(100, exCallActive)]
    callParticipants := [(300, { callId := 100, userId := 10, joinedAt := 50 })]
    messages := []
    nextId := 400 }

/-- Concrete meeting request `500`, pending, from user 20 to user 21. -/
def exReqPending : MeetingRequest :=
  { requesterId := 20, recipientId := 21, title := "Sync",
    proposedStartTime := 10, proposedEndTime := 11, status := .pending, createdAt := 1 }

/-- Concrete meeting request `501`, already approved, linking events 600/601. -/
def exReqApproved : MeetingRequest :=
  { requesterId := 20, recipientId := 21, title := "Review",
    proposedStartTime := 100, proposedEndTime := 200, status := .approved,
    eventId := some 601, createdAt := 1 }

/-- Requester-side linked event for meeting `501`. -/
def exEvReq : CalendarEvent :=
  { userId := 20, title := "Review", startTime := 100, endTime := 200,
    isAllDay := false, isPublic := false, meetingRequestId := some 501, createdAt := 2 }

/-- Recipient-side linked event for meeting `501`. -/
def exEvRec : CalendarEvent :=
  { userId := 21, title := "Review", startTime := 100, endTime := 200,
    isAllDay := false, isPublic := false, meetingRequestId := some 501, createdAt := 2 }

/-- Pending update request `700` on meeting `501` (respondent: user 21). -/
def exUpdPending : MeetingUpdateRequest :=
  { meetingRequestId := 501, requestedByUserId := 20, respondentUserId := 21,
    proposedTitle := "Review v2", proposedStartTime := 90, proposedEndTime := 95,
    proposedIsAllDay := false, proposedIsPublic := false, status := .pending,
    createdAt := 3 }

/-- Calendar database with an outstanding pending update request on `501`. -/
def exCal : CalDB :=
  { users := [(20, { email := "a at x" }), (21, { email := "b at x" })]
    events := [(600, exEvReq), (601, exEvRec)]
    meetingRequests := [(500, exReqPending), (501, exReqApproved)]
    updateRequests := [(700, exUpdPending)]
    nextId := 800 }

/-- Same calendar database with no update request outstanding. -/
def exCal2 : CalDB :=
  { users := [(20, { email := "a at x" }), (21, { email := "b at x" })]
    events := [(600, exEvReq), (601, exEvRec)]
    meetingRequests := [(500, exReqPending), (501, exReqApproved)]
    updateRequests := []
    nextId := 800 }

/-- Calendar database with a solo (unlinked) event 610 owned by user 20. -/
def exCal3 : CalDB :=
  { users := [(20, { email := "a at x" }), (21, { email := "b at x" })]
    events := [(610, { userId := 20, title := "Solo", startTime := 100, endTime := 200,
                       isAllDay := false, isPublic := false, createdAt := 2 })]
    meetingRequests := []
    updateRequests := []
    nextId := 800 }

/-! ## Association-list lemmas -/

theorem lookupA_mapVals {α : Type} (l : List (Nat × α)) (h : Nat → α → α) (k : Nat) :
    lookupA (mapVals l h) k = (lookupA l k).map (h k) := by
  induction l with
  | nil => rfl
  | cons a t ih =>
    simp only [mapVals, List.map_cons, lookupA] at *
    by_cases hk : a.1 = k
    · subst hk; simp
    · simp [hk, ih]

theorem lookupA_setA_self {α : Type} (l : List (Nat × α)) (k : Nat) (v c : α)
    (h : lookupA l k = some c) : lookupA (setA l k v) k = some v := by
  rw [setA, lookupA_mapVals, h]
  simp

theorem lookupA_setA_ne {α : Type} (l : List (Nat × α)) (k k' : Nat) (v : α)
    (h : k' ≠ k) : lookupA (setA l k v) k' = lookupA l k' := by
  rw [setA, lookupA_mapVals]
  cases lookupA l k' <;> simp [h]

theorem lookupA_append_some {α : Type} {l l₂ : List (Nat × α)} {k : Nat} {c : α}
    (h : lookupA l k = some c) : lookupA (l ++ l₂) k = some c := by
  induction l with
  | nil => simp [lookupA] at h
  | cons a t ih =>
    simp only [List.cons_append, lookupA] at *
    by_cases hk : a.1 = k
    · simpa [hk] using h
    · simp only [if_neg hk] at h ⊢; exact ih h

theorem lookupA_append_none {α : Type} {l l₂ : List (Nat × α)} {k : Nat}
    (h : lookupA l k = none) : lookupA (l ++ l₂) k = lookupA l₂ k := by
  induction l with
  | nil => simp
  | cons a t ih =>
    simp only [List.cons_append, lookupA] at *
    by_cases hk : a.1 = k
    · simp [hk] at h
    · simp only [if_neg hk] at h ⊢; exact ih h

theorem lookupA_setA_cases {α : Type} {l : List (Nat × α)} {k k' : Nat} {v c' : α}
    (h : lookupA (setA l k v) k' = some c') :
    (k' = k ∧ c' = v) ∨ (k' ≠ k ∧ lookupA l k' = some c') := by
  by_cases hk : k' = k
  · subst hk
    rw [setA, lookupA_mapVals] at h
    cases hl : lookupA l k' with
    | none => rw [hl] at h; simp at h
    | some c => rw [hl] at h; simp at h; exact Or.inl ⟨rfl, h.symm⟩
  · exact Or.inr ⟨hk, by rwa [lookupA_setA_ne _ _ _ _ hk] at h⟩

/-! ## Shape lemmas: how each handler changes the `calls` table -/

theorem createCallRecord_calls {db : DB} {a b : Option Nat} {ty : CallType}
    {rn : String} {uid : Nat} {now : Int} {db' : DB} {r : Nat}
    (h : createCallRecord db a b ty rn uid now = .ok (db', r)) :
    ∃ c, db'.calls = db.calls ++ [(db.nextId, c)] := by
  unfold createCallRecord at h
  cases hu : lookupA db.users uid with
  | none => rw [hu] at h; simp at h
  | some u =>
    rw [hu] at h
    simp only [Except.ok.injEq, Prod.mk.injEq] at h
    exact ⟨_, by rw [← h.1]⟩

theorem createCall_calls {db : DB} {uid : Nat} {a b : Option Nat} {ty : CallType}
    {rn : String} {now : Int} {db' : DB} {r : Nat}
    (h : createCall db uid a b ty rn now = .ok (db', r)) :
    ∃ c, db'.calls = db.calls ++ [(db.nextId, c)] := by
  unfold createCall at h
  split at h
  · simp at h
  · exact createCallRecord_calls h

theorem addParticipant_calls {db : DB} {uid cid : Nat} {now : Int} {db' : DB} {r : String}
    (h : addParticipant db uid cid now = .ok (db', r)) :
    db'.calls = db.calls ∨
    ∃ call, lookupA db.calls cid = some call ∧ call.status = .ringing ∧
      db'.calls = setA db.calls cid ({ call with status := .active, startedAt := some now }) := by
  unfold addParticipant at h
  cases hc : lookupA db.calls cid with
  | none => rw [hc] at h; simp at h
  | some call =>
    rw [hc] at h; dsimp only [] at h
    by_cases hterm : call.status = .ended ∨ call.status = .missed
    · rw [if_pos hterm] at h; simp at h
    · rw [if_neg hterm] at h
      cases hu : lookupA db.users uid with
      | none => rw [hu] at h; simp at h
      | some user =>
        rw [hu] at h; dsimp only [] at h
        cases ha : callAccess db call uid with
        | error e => rw [ha] at h; simp at h
        | ok _ =>
          rw [ha] at h; dsimp only [] at h
          by_cases hr : call.status = .ringing
          · refine Or.inr ⟨call, rfl, hr, ?_⟩
            cases hf : db.callParticipants.find?
                (fun p => p.2.callId = cid ∧ p.2.userId = uid) with
            | none =>
              rw [hf] at h; dsimp only [] at h
              rw [if_pos hr] at h
              simp only [Except.ok.injEq, Prod.mk.injEq] at h
              rw [← h.1]
            | some pp =>
              rw [hf] at h; dsimp only [] at h
              by_cases hl : pp.2.leftAt.isSome
              · rw [if_pos hl, if_pos hr] at h
                simp only [Except.ok.injEq, Prod.mk.injEq] at h
                rw [← h.1]
              · rw [if_neg hl, if_pos hr] at h
                simp only [Except.ok.injEq, Prod.mk.injEq] at h
                rw [← h.1]
          · refine Or.inl ?_
            cases hf : db.callParticipants.find?
                (fun p => p.2.callId = cid ∧ p.2.userId = uid) with
            | none =>
              rw [hf] at h; dsimp only [] at h
              rw [if_neg hr] at h
              simp only [Except.ok.injEq, Prod.mk.injEq] at h
              rw [← h.1]
            | some pp =>
              rw [hf] at h; dsimp only [] at h
              by_cases hl : pp.2.leftAt.isSome
              · rw [if_pos hl, if_neg hr] at h
                simp only [Except.ok.injEq, Prod.mk.injEq] at h
                rw [← h.1]
              · rw [if_neg hl, if_neg hr] at h
                simp only [Except.ok.injEq, Prod.mk.injEq] at h
                rw [← h.1]

theorem leaveCall_calls {db : DB} {uid cid : Nat} {now : Int} {db' : DB} {r : Nat}
    (h : leaveCall db uid cid now = .ok (db', r)) :
    db'.calls = db.calls ∨
    ∃ call, lookupA db.calls cid = some call ∧ call.status = .active ∧
      db'.calls = setA db.calls cid ({ call with
        status := .ended
        endedAt := some now
        duration := some (callDurationOf call.startedAt now) }) := by
  unfold leaveCall at h
  cases hu : lookupA db.users uid with
  | none => rw [hu] at h; simp at h
  | some user =>
    rw [hu] at h; dsimp only [] at h
    cases hc : lookupA db.calls cid with
    | none => rw [hc] at h; simp at h
    | some call =>
      rw [hc] at h; dsimp only [] at h
      cases hf : db.callParticipants.find?
          (fun p => p.2.callId = cid ∧ p.2.userId = uid) with
      | none =>
        rw [hf] at h; dsimp only [] at h
        split at h
        · next hcond =>
          simp only [Except.ok.injEq, Prod.mk.injEq] at h
          split at h
          · exact Or.inr ⟨call, rfl, hcond.2, by rw [← h.1]⟩
          · exact Or.inr ⟨call, rfl, hcond.2, by rw [← h.1]⟩
        · simp only [Except.ok.injEq, Prod.mk.injEq] at h
          exact Or.inl (by rw [← h.1])
      | some pp =>
        rw [hf] at h; dsimp only [] at h
        by_cases hl : pp.2.leftAt = none
        · rw [if_pos hl] at h
          split at h
          · next hcond =>
            simp only [Except.ok.injEq, Prod.mk.injEq] at h
            split at h
            · exact Or.inr ⟨call, rfl, hcond.2, by rw [← h.1]⟩
            · exact Or.inr ⟨call, rfl, hcond.2, by rw [← h.1]⟩
          · simp only [Except.ok.injEq, Prod.mk.injEq] at h
            exact Or.inl (by rw [← h.1])
        · rw [if_neg hl] at h
          split at h
          · next hcond =>
            simp only [Except.ok.injEq, Prod.mk.injEq] at h
            split at h
            · exact Or.inr ⟨call, rfl, hcond.2, by rw [← h.1]⟩
            · exact Or.inr ⟨call, rfl, hcond.2, by rw [← h.1]⟩
          · simp only [Except.ok.injEq, Prod.mk.injEq] at h
            exact Or.inl (by rw [← h.1])

theorem endCall_calls {db : DB} {cid : Nat} {now : Int} {db' : DB} {r : Nat}
    (h : endCall db cid now = .ok (db', r)) :
    db'.calls = db.calls ∨
    ∃ call, lookupA db.calls cid = some call ∧ call.status ≠ .ended ∧
      ∃ c', c'.status = (if call.status = .ringing then CallStatus.missed else .ended) ∧
        db'.calls = setA db.calls cid c' := by
  unfold endCall at h
  cases hc : lookupA db.calls cid with
  | none => rw [hc] at h; simp at h
  | some call =>
    rw [hc] at h; dsimp only [] at h
    by_cases he : call.status = .ended
    · rw [if_pos he] at h
      simp only [Except.ok.injEq, Prod.mk.injEq] at h
      exact Or.inl (by rw [← h.1])
    · rw [if_neg he] at h
      refine Or.inr ⟨call, rfl, he, ?_⟩
      split at h
      · next hsome =>
        simp only [Except.ok.injEq, Prod.mk.injEq] at h
        refine ⟨{ call with status := .missed, endedAt := some now, duration := none },
          by simp [hsome], ?_⟩
        rw [← h.1]
        split
        · simp
        · split <;> simp
      · next hsome =>
        simp only [Except.ok.injEq, Prod.mk.injEq] at h
        refine ⟨{ call with status := .ended, endedAt := some now, duration := some (callDurationOf call.startedAt now) }, by simp [hsome], ?_⟩
        rw [← h.1]
        split
        · simp
        · split <;> simp

/-- C2 (amended): across every call-lifecycle mutation (`createCall`,
`joinCall`, `leaveCall`, `endCall`), a stored call's status either stays put
or moves along `ringing → active → ended`, `ringing → missed`, or — beyond
the claimed chains — `missed → ended` (reachable via `endCall` on a missed
call, which lacks a `missed` early-return).  No transition backward or
re-entering `ringing` is reachable. -/
theorem callStep_transition {db db' : DB} (hstep : CallStep db db')
    {id : Nat} {c c' : Call} (hc : lookupA db.calls id = some c)
    (hc' : lookupA db'.calls id = some c') : codeTransition c.status c'.status := by
  have refl_trans : ∀ s, codeTransition s s := fun s => Or.inl (Or.inl rfl)
  cases hstep with
  | create h =>
    obtain ⟨nc, hcalls⟩ := createCall_calls h
    rw [hcalls, lookupA_append_some hc] at hc'
    cases Option.some.inj hc'
    exact refl_trans _
  | join h =>
    rcases addParticipant_calls h with heq | ⟨call, hcall, hring, hcalls⟩
    · rw [heq, hc] at hc'
      cases Option.some.inj hc'
      exact refl_trans _
    · rw [hcalls] at hc'
      rcases lookupA_setA_cases hc' with ⟨hid, hcv⟩ | ⟨hid, hl⟩
      · subst hid
        rw [hc] at hcall
        cases Option.some.inj hcall
        rw [hcv]
        exact Or.inl (Or.inr (Or.inl ⟨hring, rfl⟩))
      · rw [hc] at hl
        cases Option.some.inj hl
        exact refl_trans _
  | leave h =>
    rcases leaveCall_calls h with heq | ⟨call, hcall, hact, hcalls⟩
    · rw [heq, hc] at hc'
      cases Option.some.inj hc'
      exact refl_trans _
    · rw [hcalls] at hc'
      rcases lookupA_setA_cases hc' with ⟨hid, hcv⟩ | ⟨hid, hl⟩
      · subst hid
        rw [hc] at hcall
        cases Option.some.inj hcall
        rw [hcv]
        exact Or.inl (Or.inr (Or.inr (Or.inr ⟨hact, rfl⟩)))
      · rw [hc] at hl
        cases Option.some.inj hl
        exact refl_trans _
  | finish h =>
    rcases endCall_calls h with heq | ⟨call, hcall, hne, c2, hc2s, hcalls⟩
    · rw [heq, hc] at hc'
      cases Option.some.inj hc'
      exact refl_trans _
    · rw [hcalls] at hc'
      rcases lookupA_setA_cases hc' with ⟨hid, hcv⟩ | ⟨hid, hl⟩
      · subst hid
        rw [hc] at hcall
        cases Option.some.inj hcall
        rw [hcv, hc2s]
        cases h4 : c.status with
        | ringing => decide
        | active => decide
        | ended => exact absurd h4 hne
        | missed => decide
      · rw [hc] at hl
        cases Option.some.inj hl
        exact refl_trans _

theorem endCall_run (db : DB) (callId : Nat) (now : Int) (call : Call)
    (fs : CallStatus) (d : Option Int)
    (hc : lookupA db.calls callId = some call) (hne : call.status ≠ .ended)
    (hfs : fs = if call.status = .ringing then .missed else .ended)
    (hd : d = if fs = .ended then some (callDurationOf call.startedAt now) else none) :
    ∃ db', endCall db callId now = .ok (db', callId) ∧
      lookupA db'.calls callId = some ({ call with status := fs, endedAt := some now, duration := d }) := by
  unfold endCall
  rw [hc]
  dsimp only []
  rw [if_neg hne, ← hfs, ← hd]
  refine ⟨_, rfl, ?_⟩
  split
  · exact lookupA_setA_self _ _ _ _ hc
  · split
    · exact lookupA_setA_self _ _ _ _ hc
    · exact lookupA_setA_self _ _ _ _ hc

/-- C1 (amended): `endCall` on a `ringing` call yields `missed` with no
`duration` set; on an `active` call yields `ended` with a numeric duration;
on an already-`ended` call it is a no-op returning the same id.  On a
`missed` call, however — contrary to the original claim — it is not a
no-op: the handler early-returns only on `ended`, so a missed call is
re-terminated to `ended`, stamping `endedAt` (and a duration). -/
theorem c1_endCall_by_status (db : DB) (callId : Nat) (now : Int) (call : Call)
    (hc : lookupA db.calls callId = some call) :
    (call.status = .ended → endCall db callId now = .ok (db, callId)) ∧
    (call.status = .ringing → ∃ db' c', endCall db callId now = .ok (db', callId) ∧
      lookupA db'.calls callId = some c' ∧ c'.status = .missed ∧ c'.duration = none ∧
      c'.endedAt = some now) ∧
    (call.status = .active → ∃ db' c', endCall db callId now = .ok (db', callId) ∧
      lookupA db'.calls callId = some c' ∧ c'.status = .ended ∧
      c'.duration = some (callDurationOf call.startedAt now)) ∧
    (call.status = .missed → ∃ db' c', endCall db callId now = .ok (db', callId) ∧
      lookupA db'.calls callId = some c' ∧ c'.status = .ended ∧ c'.endedAt = some now) := by
  refine ⟨?_, ?_, ?_, ?_⟩
  · intro h1
    unfold endCall
    rw [hc]
    dsimp only []
    rw [if_pos h1]
  · intro h1
    obtain ⟨db', hrun, hl⟩ := endCall_run db callId now call .missed none hc
      (by rw [h1]; decide) (by rw [h1]; rfl) (by simp)
    exact ⟨db', _, hrun, hl, rfl, rfl, rfl⟩
  · intro h1
    obtain ⟨db', hrun, hl⟩ := endCall_run db callId now call .ended
      (some (callDurationOf call.startedAt now)) hc
      (by rw [h1]; decide) (by rw [h1]; rfl) (by simp)
    exact ⟨db', _, hrun, hl, rfl, rfl⟩
  · intro h1
    obtain ⟨db', hrun, hl⟩ := endCall_run db callId now call .ended
      (some (callDurationOf call.startedAt now)) hc
      (by rw [h1]; decide) (by rw [h1]; rfl) (by simp)
    exact ⟨db', _, hrun, hl, rfl, rfl⟩

/-- Counterexample to C1 as stated: call `100` of `exDB1` is in the terminal
status `missed`, yet `endCall` mutates it to `ended` instead of leaving it
untouched. -/
theorem c1_counterexample :
    (lookupA exDB1.calls 100).map Call.status = some CallStatus.missed ∧
    (endCall exDB1 100 5).map (fun p => (lookupA p.1.calls 100).map Call.status) =
      .ok (some CallStatus.ended) ∧
    CallStatus.ended ≠ CallStatus.missed :=
  ⟨rfl, rfl, by decide⟩

/-- Witness for C1: on the concrete active call of `exDBone`, `endCall`
terminates it to `ended` with the numeric duration `80 − 50 = 30`. -/
theorem c1_witness :
    ∃ db' c', endCall exDBone 100 80 = .ok (db', 100) ∧
      lookupA db'.calls 100 = some c' ∧ c'.status = .ended ∧
      c'.duration = some 30 :=
  (c1_endCall_by_status exDBone 100 80 exCallActive (by decide)).2.2.1 (by decide)

/-- Counterexample to C2 as stated: `endCall` on the missed call of `exDB1`
is a reachable backend step that moves the call out of the terminal state
`missed` into `ended`, a transition the claimed chains do not contain. -/
theorem c2_counterexample :
    CallStep exDB1 exDB1' ∧
    (lookupA exDB1.calls 100).map Call.status = some CallStatus.missed ∧
    (lookupA exDB1'.calls 100).map Call.status = some CallStatus.ended ∧
    ¬ specClaimedTransition CallStatus.missed CallStatus.ended :=
  ⟨CallStep.finish (rfl : endCall exDB1 100 5 = .ok (exDB1', 100)), rfl, rfl, by decide⟩

/-- Witness for C2 (amended): the concrete `endCall` step on `exDB1`
realizes the `missed → ended` transition admitted by `codeTransition`. -/
theorem c2_witness : codeTransition CallStatus.missed CallStatus.ended :=
  callStep_transition
    (CallStep.finish (rfl : endCall exDB1 100 5 = .ok (exDB1', 100)))
    (by decide : lookupA exDB1.calls 100 = some exCallMissed)
    (by decide : lookupA exDB1'.calls 100 =
      some ({ exCallMissed with status := .ended, endedAt := some 5, duration := some 0 }))

/-- C3 (amended): `createCall` rejects a call only when NEITHER
`conversationId` nor `groupId` is supplied; when at least one is present —
including when BOTH are — the call is created in `ringing` and stores
exactly the supplied target fields, so a call with both fields present is
accepted and stored, contrary to the original mutual-exclusion claim. -/
theorem c3_createCall_target (db : DB) (initiatorId : Nat)
    (conversationId groupId : Option Nat) (ty : CallType) (rn : String) (now : Int)
    (u : UserRec) (hu : lookupA db.users initiatorId = some u)
    (hfresh : lookupA db.calls db.nextId = none) :
    (conversationId = none ∧ groupId = none →
      createCall db initiatorId conversationId groupId ty rn now =
        .error "Must specify either conversationId or groupId") ∧
    (¬(conversationId = none ∧ groupId = none) →
      ∃ db', createCall db initiatorId conversationId groupId ty rn now = .ok (db', db.nextId) ∧
        ∃ c, lookupA db'.calls db.nextId = some c ∧
          c.conversationId = conversationId ∧ c.groupId = groupId ∧ c.status = .ringing) := by
  constructor
  · intro h1
    unfold createCall
    rw [if_pos h1]
  · intro h1
    unfold createCall createCallRecord
    rw [if_neg h1, hu]
    dsimp only []
    have hl : ∀ v : Call, lookupA (db.calls ++ [(db.nextId, v)]) db.nextId = some v := by
      intro v
      rw [lookupA_append_none hfresh]
      simp [lookupA]
    exact ⟨_, rfl, _, hl _, rfl, rfl, rfl⟩

/-- Counterexample to C3 as stated: supplying BOTH `conversationId` and
`groupId` is not rejected — the call is created and stores both fields. -/
theorem c3_counterexample :
    ∃ db', createCall exDB1 10 (some 1) (some 2) .video "room" 0 = .ok (db', 200) ∧
      (lookupA db'.calls 200).map (fun c => (c.conversationId, c.groupId)) =
        some (some 1, some 2) :=
  ⟨_, rfl, rfl⟩

/-- Witness for C3 (amended): on `exDB1`, the no-target call is rejected and
the conversation-targeted call is created storing its target. -/
theorem c3_witness :
    (createCall exDB1 10 none none .video "room" 0 =
      .error "Must specify either conversationId or groupId") ∧
    (∃ db', createCall exDB1 10 (some 1) none .video "room" 0 = .ok (db', 200) ∧
      ∃ c, lookupA db'.calls 200 = some c ∧
        c.conversationId = some 1 ∧ c.groupId = none ∧ c.status = .ringing) :=
  ⟨(c3_createCall_target exDB1 10 none none .video "room" 0 exUser (by decide) (by decide)).1
      ⟨rfl, rfl⟩,
   (c3_createCall_target exDB1 10 (some 1) none .video "room" 0 exUser (by decide) (by decide)).2
      (by decide)⟩

/-- C10: for an authenticated caller whose user record exists and an existing
call, `leaveCall` always succeeds, returns the call id, and unconditionally
overwrites the caller's `presenceStatus` with `active` — also when the
caller never joined the call or already left it, in which case the
participant table is untouched. -/
theorem c10_leaveCall_presence (db : DB) (userId callId : Nat) (now : Int)
    (user : UserRec) (call : Call)
    (hu : lookupA db.users userId = some user)
    (hc : lookupA db.calls callId = some call) :
    ∃ db', leaveCall db userId callId now = .ok (db', callId) ∧
      (lookupA db'.users userId).map UserRec.presenceStatus = some Presence.active ∧
      ((db.callParticipants.find? (fun p => p.2.callId = callId ∧ p.2.userId = userId) = none ∨
        ∃ pid p, db.callParticipants.find?
            (fun q => q.2.callId = callId ∧ q.2.userId = userId) = some (pid, p) ∧
          p.leftAt ≠ none) →
        db'.callParticipants = db.callParticipants) := by
  unfold leaveCall
  rw [hu]
  dsimp only []
  rw [hc]
  dsimp only []
  cases hf : db.callParticipants.find?
      (fun p => p.2.callId = callId ∧ p.2.userId = userId) with
  | none =>
    dsimp only []
    split
    · refine ⟨_, rfl, ?_, fun _ => by split <;> rfl⟩
      split <;> (rw [lookupA_setA_self _ _ _ _ hu]; rfl)
    · refine ⟨_, rfl, ?_, fun _ => rfl⟩
      rw [lookupA_setA_self _ _ _ _ hu]
      rfl
  | some pp =>
    dsimp only []
    by_cases hl : pp.2.leftAt = none
    · rw [if_pos hl]
      split
      · refine ⟨_, rfl, ?_, ?_⟩
        · split <;> (rw [lookupA_setA_self _ _ _ _ hu]; rfl)
        · rintro (hnone | ⟨pid, p, hsome, hleft⟩)
          · exact absurd hnone (by simp)
          · cases Option.some.inj hsome
            exact absurd hl hleft
      · refine ⟨_, rfl, ?_, ?_⟩
        · rw [lookupA_setA_self _ _ _ _ hu]
          rfl
        · rintro (hnone | ⟨pid, p, hsome, hleft⟩)
          · exact absurd hnone (by simp)
          · cases Option.some.inj hsome
            exact absurd hl hleft
    · rw [if_neg hl]
      split
      · refine ⟨_, rfl, ?_, fun _ => by split <;> rfl⟩
        split <;> (rw [lookupA_setA_self _ _ _ _ hu]; rfl)
      · refine ⟨_, rfl, ?_, fun _ => rfl⟩
        rw [lookupA_setA_self _ _ _ _ hu]
        rfl

/-- Witness for C10: on `exDB1` user 10 (presence `busy`) never joined call
`100`, yet `leaveCall` succeeds, flips their presence to `active`, and
leaves the (empty) participant table untouched. -/
theorem c10_witness :
    ∃ db', leaveCall exDB1 10 100 7 = .ok (db', 100) ∧
      (lookupA db'.users 10).map UserRec.presenceStatus = some Presence.active ∧
      ((exDB1.callParticipants.find? (fun p => p.2.callId = 100 ∧ p.2.userId = 10) = none ∨
        ∃ pid p, exDB1.callParticipants.find?
            (fun q => q.2.callId = 100 ∧ q.2.userId = 10) = some (pid, p) ∧
          p.leftAt ≠ none) →
        db'.callParticipants = exDB1.callParticipants) :=
  c10_leaveCall_presence exDB1 10 100 7 exUser exCallMissed (by decide) (by decide)

theorem mem_setA_of_ne {α : Type} {l : List (Nat × α)} {k qid : Nat} {q v : α}
    (hmem : (qid, q) ∈ l) (hne : qid ≠ k) : (qid, q) ∈ setA l k v := by
  unfold setA mapVals
  have h2 := List.mem_map_of_mem (fun p : Nat × α => (p.1, if p.1 = k then v else p.2)) hmem
  simpa [hne] using h2

/-- C4: when the caller (who has a participant row) leaves while at least one
other active participant row remains, the call record is untouched; when the
caller's row is the only active row of an `active` call, `leaveCall` ends the
call, stamping `endedAt = now` and `duration = now − startedAt ≥ 0`, and
inserts exactly one system chat message reporting the formatted duration. -/
theorem c4_leaveCall_last (db : DB) (userId callId : Nat) (now : Int)
    (user : UserRec) (call : Call) (s : Int) (pid : Nat) (p : CallParticipant)
    (hu : lookupA db.users userId = some user)
    (hc : lookupA db.calls callId = some call)
    (hf : db.callParticipants.find?
      (fun q => q.2.callId = callId ∧ q.2.userId = userId) = some (pid, p))
    (hact : call.status = .active)
    (hst : call.startedAt = some s) (hs0 : s ≠ 0) (hsle : s ≤ now)
    (htgt : call.conversationId.isSome ∨ call.groupId.isSome) :
    (∀ qid q, (qid, q) ∈ db.callParticipants → q.callId = callId → q.leftAt = none →
      qid ≠ pid →
      ∃ db', leaveCall db userId callId now = .ok (db', callId) ∧
        lookupA db'.calls callId = some call) ∧
    (p.leftAt = none →
     db.callParticipants.filter (fun q => q.2.callId = callId ∧ q.2.leftAt = none) = [(pid, p)] →
      ∃ db', leaveCall db userId callId now = .ok (db', callId) ∧
        lookupA db'.calls callId =
          some ({ call with status := .ended, endedAt := some now, duration := some (now - s) }) ∧
        db'.messages = db.messages ++
          [{ senderId := call.initiatorId
             content := "Call ended - Duration: " ++ formatDuration (now - s)
             conversationId := call.conversationId
             groupId := call.groupId
             type := "call"
             callDuration := some (now - s)
             isDeleted := false
             createdAt := now }] ∧
        0 ≤ now - s) := by
  have hdur : callDurationOf call.startedAt now = now - s := by
    rw [hst]; simp [callDurationOf, hs0]
  constructor
  · intro qid q hmem hqc hql hqne
    unfold leaveCall
    rw [hu]
    dsimp only []
    rw [hc]
    dsimp only []
    rw [hf]
    dsimp only []
    by_cases hl : p.leftAt = none
    · rw [if_pos hl]
      have hmem2 : (qid, q) ∈ setA db.callParticipants pid ({ p with leftAt := some now }) :=
        mem_setA_of_ne hmem hqne
      have hmem3 : (qid, q) ∈ (setA db.callParticipants pid
          ({ p with leftAt := some now })).filter
            (fun r => r.2.callId = callId ∧ r.2.leftAt = none) :=
        List.mem_filter.mpr ⟨hmem2, by simp [hqc, hql]⟩
      rw [if_neg ?_]
      · exact ⟨_, rfl, hc⟩
      · rintro ⟨h0, -⟩
        rw [List.length_eq_zero] at h0
        rw [h0] at hmem3
        simp at hmem3
    · rw [if_neg hl]
      have hmem3 : (qid, q) ∈ db.callParticipants.filter
          (fun r => r.2.callId = callId ∧ r.2.leftAt = none) :=
        List.mem_filter.mpr ⟨hmem, by simp [hqc, hql]⟩
      rw [if_neg ?_]
      · exact ⟨_, rfl, hc⟩
      · rintro ⟨h0, -⟩
        rw [List.length_eq_zero] at h0
        rw [h0] at hmem3
        simp at hmem3
  · intro hpl hfil
    unfold leaveCall
    rw [hu]
    dsimp only []
    rw [hc]
    dsimp only []
    rw [hf]
    dsimp only []
    rw [if_pos hpl]
    have hemp : (setA db.callParticipants pid ({ p with leftAt := some now })).filter
        (fun r => r.2.callId = callId ∧ r.2.leftAt = none) = [] := by
      rw [List.filter_eq_nil_iff]
      intro a hmem
      rw [setA, mapVals, List.mem_map] at hmem
      obtain ⟨orig, horig, rfl⟩ := hmem
      by_cases ho : orig.1 = pid
      · simp [ho]
      · simp only [if_neg ho]
        intro hpred
        have hin : orig ∈ db.callParticipants.filter
            (fun r => r.2.callId = callId ∧ r.2.leftAt = none) :=
          List.mem_filter.mpr ⟨horig, by simpa using hpred⟩
        rw [hfil] at hin
        simp at hin
        exact ho (by rw [hin])
    rw [if_pos ⟨by rw [hemp]; rfl, hact⟩, if_pos htgt, ← hdur]
    refine ⟨_, rfl, ?_, rfl, ?_⟩
    · exact lookupA_setA_self _ _ _ _ hc
    · rw [hdur]; omega

/-- Witness for C4: on `exDBtwo` user 10 leaves while user 11 remains active,
so call 100 is unchanged; on `exDBone` user 10 is the last active
participant, so the call ends with duration `80 − 50 = 30` and the duration
message is appended. -/
theorem c4_witness :
    (∃ db', leaveCall exDBtwo 10 100 80 = .ok (db', 100) ∧
       lookupA db'.calls 100 = some exCallActive) ∧
    (∃ db', leaveCall exDBone 10 100 80 = .ok (db', 100) ∧
       lookupA db'.calls 100 =
         some ({ exCallActive with status := .ended, endedAt := some 80, duration := some (80 - 50) }) ∧
       db'.messages = exDBone.messages ++
         [{ senderId := exCallActive.initiatorId
            content := "Call ended - Duration: " ++ formatDuration (80 - 50)
            conversationId := exCallActive.conversationId
            groupId := exCallActive.groupId
            type := "call"
            callDuration := some (80 - 50)
            isDeleted := false
            createdAt := 80 }] ∧
       (0 : Int) ≤ 80 - 50) :=
  ⟨(c4_leaveCall_last exDBtwo 10 100 80 exUser exCallActive 50 300
      ({ callId := 100, userId := 10, joinedAt := 50 })
      (by decide) (by decide) (by decide) (by decide) (by decide) (by decide)
      (by decide) (by decide)).1
    301 ({ callId := 100, userId := 11, joinedAt := 55 }) (by decide) (by decide)
    (by decide) (by decide),
   (c4_leaveCall_last exDBone 10 100 80 exUser exCallActive 50 300
      ({ callId := 100, userId := 10, joinedAt := 50 })
      (by decide) (by decide) (by decide) (by decide) (by decide) (by decide)
      (by decide) (by decide)).2
    (by decide) (by decide)⟩

/-- C9: approving a pending meeting request inserts the recipient's calendar
event first and the requester's second, both carrying the request id as
`meetingRequestId`, and back-fills the request's `eventId` with the
recipient's (first) event id — which is distinct from the requester's. -/
theorem c9_respondToRequest_approved (db : CalDB) (userId requestId : Nat)
    (msg : Option String) (now : Int) (u : CalUser) (req : MeetingRequest)
    (hu : lookupA db.users userId = some u)
    (hr : lookupA db.meetingRequests requestId = some req)
    (hrec : req.recipientId = userId)
    (hp : req.status = .pending) :
    ∃ db' recipEv reqEv,
      respondToRequest db userId requestId .approved msg now = .ok (db', requestId) ∧
      db'.events = db.events ++ [(db.nextId, recipEv), (db.nextId + 1, reqEv)] ∧
      recipEv.userId = userId ∧ reqEv.userId = req.requesterId ∧
      recipEv.meetingRequestId = some requestId ∧ reqEv.meetingRequestId = some requestId ∧
      (lookupA db'.meetingRequests requestId).map MeetingRequest.eventId = some (some db.nextId) ∧
      db.nextId ≠ db.nextId + 1 := by
  unfold respondToRequest
  rw [hu]
  dsimp only []
  rw [hr]
  dsimp only []
  rw [if_neg (by simp [hrec]), if_neg (by simp [hp])]
  refine ⟨_, _, _, rfl, rfl, rfl, rfl, rfl, rfl, ?_, by omega⟩
  rw [lookupA_setA_self _ _ _ _ (lookupA_setA_self _ _ _ _ hr)]
  rfl

/-- Witness for C9: user 21 approves the pending request `500` of `exCal2`;
two linked events appear (ids 800 and 801) and the request's `eventId` is
back-filled with 800, the recipient's event. -/
theorem c9_witness :
    ∃ db' recipEv reqEv,
      respondToRequest exCal2 21 500 .approved none 9 = .ok (db', 500) ∧
      db'.events = exCal2.events ++ [(800, recipEv), (801, reqEv)] ∧
      recipEv.userId = 21 ∧ reqEv.userId = exReqPending.requesterId ∧
      recipEv.meetingRequestId = some 500 ∧ reqEv.meetingRequestId = some 500 ∧
      (lookupA db'.meetingRequests 500).map MeetingRequest.eventId = some (some 800) ∧
      (800 : Nat) ≠ 801 :=
  c9_respondToRequest_approved exCal2 21 500 none 9
    ({ email := "b at x" }) exReqPending (by decide) (by decide) (by decide) (by decide)

/-- C7: `respondToMeetingUpdate` errors for anyone but the named respondent
and for non-`pending` requests; on approval every calendar event linked to
the meeting (by `meetingRequestId`) is patched with the identical proposed
field set; on denial no event is touched; either way the request's status
becomes the terminal decision. -/
theorem c7_respondToMeetingUpdate (db : CalDB) (userId updateRequestId : Nat)
    (st : Decision) (msg : Option String) (now : Int) (ur : MeetingUpdateRequest)
    (hur : lookupA db.updateRequests updateRequestId = some ur) :
    (ur.respondentUserId ≠ userId →
      respondToMeetingUpdate db userId updateRequestId st msg now =
        .error "Not authorized to respond to this update request") ∧
    (ur.respondentUserId = userId → ur.status ≠ .pending →
      respondToMeetingUpdate db userId updateRequestId st msg now =
        .error "This update request has already been responded to") ∧
    (ur.respondentUserId = userId → ur.status = .pending →
      ∃ db', respondToMeetingUpdate db userId updateRequestId st msg now =
          .ok (db', updateRequestId) ∧
        (lookupA db'.updateRequests updateRequestId).map MeetingUpdateRequest.status =
          some st.toStatus ∧
        st.toStatus ≠ .pending ∧
        (st = .denied → db'.events = db.events) ∧
        (st = .approved → ∀ eid ev, lookupA db.events eid = some ev →
          lookupA db'.events eid = some (if ev.meetingRequestId = some ur.meetingRequestId
            then { ev with
              title := ur.proposedTitle
              description := ur.proposedDescription
              startTime := ur.proposedStartTime
              endTime := ur.proposedEndTime
              isAllDay := ur.proposedIsAllDay
              isPublic := ur.proposedIsPublic
              updatedAt := some now }
            else ev))) := by
  refine ⟨?_, ?_, ?_⟩
  · intro h1
    unfold respondToMeetingUpdate
    rw [hur]
    dsimp only []
    rw [if_pos h1]
  · intro h1 h2
    unfold respondToMeetingUpdate
    rw [hur]
    dsimp only []
    rw [if_neg (by simp [h1]), if_pos h2]
  · intro h1 h2
    unfold respondToMeetingUpdate
    rw [hur]
    dsimp only []
    rw [if_neg (by simp [h1]), if_neg (by simp [h2])]
    cases st with
    | denied =>
      refine ⟨_, rfl, ?_, by decide, fun _ => rfl, fun hc => absurd hc (by decide)⟩
      rw [lookupA_setA_self _ _ _ _ hur]
      rfl
    | approved =>
      refine ⟨_, rfl, ?_, by decide, fun hc => absurd hc (by decide), fun _ => ?_⟩
      · rw [lookupA_setA_self _ _ _ _ hur]
        rfl
      · intro eid ev hev
        dsimp only []
        rw [lookupA_mapVals, hev]
        rfl

/-- Witness for C7: user 21 approves update request `700` of `exCal`; both
linked events 600 and 601 receive the proposed field set and the request
becomes `approved`. -/
theorem c7_witness :
    ∃ db', respondToMeetingUpdate exCal 21 700 .approved none 9 = .ok (db', 700) ∧
      (lookupA db'.updateRequests 700).map MeetingUpdateRequest.status =
        some Decision.approved.toStatus ∧
      Decision.approved.toStatus ≠ ReqStatus.pending ∧
      (Decision.approved = Decision.denied → db'.events = exCal.events) ∧
      (Decision.approved = Decision.approved → ∀ eid ev, lookupA exCal.events eid = some ev →
        lookupA db'.events eid = some (if ev.meetingRequestId = some exUpdPending.meetingRequestId
          then { ev with
            title := exUpdPending.proposedTitle
            description := exUpdPending.proposedDescription
            startTime := exUpdPending.proposedStartTime
            endTime := exUpdPending.proposedEndTime
            isAllDay := exUpdPending.proposedIsAllDay
            isPublic := exUpdPending.proposedIsPublic
            updatedAt := some 9 }
          else ev)) :=
  (c7_respondToMeetingUpdate exCal 21 700 .approved none 9 exUpdPending (by decide)).2.2
    (by decide) (by decide)

/-- C8: a successful `updateEvent` on a linked event (one with
`meetingRequestId` set) never touches the events table: it returns a
requires-approval result and appends exactly one `pending`
`MeetingUpdateRequest` whose respondent is the other meeting participant,
whose proposed fields merge the arguments over the event's current values
(every unspecified field defaults to the current value, every specified
time is taken from the arguments), and which passes the `end > start` and
non-empty-title validations. -/
theorem c8_updateEvent_linked (db : CalDB) (userId eventId : Nat)
    (args : UpdateEventArgs) (now : Int) (event : CalendarEvent) (mid : Nat)
    (db' : CalDB) (r : UpdateResult)
    (he : lookupA db.events eventId = some event)
    (hm : event.meetingRequestId = some mid)
    (h : updateEvent db userId eventId args now = .ok (db', r)) :
    db'.events = db.events ∧
    (∃ msg, r = .requiresApproval msg) ∧
    ∃ mr, lookupA db.meetingRequests mid = some mr ∧
    ∃ ur, db'.updateRequests = db.updateRequests ++ [(db.nextId, ur)] ∧
      ur.status = .pending ∧
      ur.meetingRequestId = mid ∧
      ur.requestedByUserId = userId ∧
      ur.respondentUserId =
        (if mr.requesterId = userId then mr.recipientId else mr.requesterId) ∧
      ur.proposedStartTime < ur.proposedEndTime ∧
      ur.proposedTitle.length ≠ 0 ∧
      (args.title = none → ur.proposedTitle = event.title) ∧
      (args.description = none → ur.proposedDescription = event.description) ∧
      (args.startTime = none → ur.proposedStartTime = event.startTime) ∧
      (args.endTime = none → ur.proposedEndTime = event.endTime) ∧
      (args.isAllDay = none → ur.proposedIsAllDay = event.isAllDay) ∧
      (args.isPublic = none → ur.proposedIsPublic = event.isPublic) ∧
      (args.startTime ≠ none → ur.proposedStartTime = args.startTime.getD event.startTime) ∧
      (args.endTime ≠ none → ur.proposedEndTime = args.endTime.getD event.endTime) := by
  unfold updateEvent at h
  cases hu : lookupA db.users userId with
  | none => rw [hu] at h; simp at h
  | some u =>
    rw [hu] at h
    dsimp only [] at h
    rw [he] at h
    dsimp only [] at h
    by_cases hown : event.userId ≠ userId
    · rw [if_pos hown] at h; simp at h
    · rw [if_neg hown] at h
      rw [hm] at h
      dsimp only [] at h
      cases hmr : lookupA db.meetingRequests mid with
      | none => rw [hmr] at h; simp at h
      | some mr =>
        rw [hmr] at h
        dsimp only [] at h
        cases hfind : db.updateRequests.find?
            (fun p => p.2.meetingRequestId = mid ∧ p.2.status = .pending) with
        | some x => rw [hfind] at h; simp at h
        | none =>
          rw [hfind] at h
          dsimp only [] at h
          split at h
          · simp at h
          next ht =>
            split at h
            · simp at h
            next htime =>
              simp only [Except.ok.injEq, Prod.mk.injEq] at h
              obtain ⟨hdb, hres⟩ := h
              subst hdb
              exact ⟨rfl, ⟨_, hres.symm⟩, mr, rfl, _, rfl, rfl, rfl, rfl, rfl,
                lt_of_not_le htime, ht,
                fun hn => by simp [mergedTitle, hn], fun hn => by simp [hn],
                fun hn => by simp [hn], fun hn => by simp [hn], fun hn => by simp [hn],
                fun hn => by simp [hn], fun _ => rfl, fun _ => rfl⟩

/-- Witness for C8: user 20 proposes a new time range for the linked event
`600` of `exCal2` (no update request outstanding); the event table is
unchanged and a pending update request for meeting `501` appears, naming
user 21 as respondent, with unspecified fields defaulting to the event's
current values. -/
theorem c8_witness :
    ∃ dbres r, updateEvent exCal2 20 600 ({ startTime := some 150, endTime := some 250 }) 9 =
        .ok (dbres, r) ∧
      dbres.events = exCal2.events ∧
      (∃ msg, r = .requiresApproval msg) ∧
      ∃ mr, lookupA exCal2.meetingRequests 501 = some mr ∧
      ∃ ur, dbres.updateRequests = exCal2.updateRequests ++ [(800, ur)] ∧
        ur.status = .pending ∧
        ur.meetingRequestId = 501 ∧
        ur.requestedByUserId = 20 ∧
        ur.respondentUserId = (if mr.requesterId = 20 then mr.recipientId else mr.requesterId) ∧
        ur.proposedStartTime < ur.proposedEndTime ∧
        ur.proposedTitle.length ≠ 0 ∧
        ur.proposedTitle = exEvReq.title ∧
        ur.proposedStartTime = 150 ∧
        ur.proposedEndTime = 250 := by
  have hrun : ∃ dbres r,
      updateEvent exCal2 20 600 ({ startTime := some 150, endTime := some 250 }) 9 =
        .ok (dbres, r) := ⟨_, _, rfl⟩
  obtain ⟨dbres, r, hrun⟩ := hrun
  obtain ⟨hev, hres, mr, hmr, ur, hupd, hst, hmid, hreq, hresp, hlt, hlen,
    htdef, -, -, -, -, -, hsspec, hespec⟩ :=
    c8_updateEvent_linked exCal2 20 600 ({ startTime := some 150, endTime := some 250 }) 9
      exEvReq 501 dbres r (by decide) (by decide) hrun
  exact ⟨dbres, r, hrun, hev, hres, mr, hmr, ur, hupd, hst, hmid, hreq, hresp, hlt, hlen,
    htdef rfl, hsspec (by decide), hespec (by decide)⟩

theorem length_filter_map_le {α : Type} (l : List α) (g : α → α) (p : α → Bool)
    (himp : ∀ x ∈ l, p (g x) = true → p x = true) :
    ((l.map g).filter p).length ≤ (l.filter p).length := by
  induction l with
  | nil => simp
  | cons a t ih =>
    have iht := ih (fun x hx => himp x (List.mem_cons_of_mem a hx))
    simp only [List.map_cons, List.filter_cons]
    by_cases hga : p (g a) = true
    · rw [if_pos hga, if_pos (himp a (List.mem_cons_self a t) hga)]
      simpa using iht
    · rw [if_neg hga]
      by_cases hpa : p a = true
      · rw [if_pos hpa]
        exact le_trans iht (by simp)
      · rw [if_neg hpa]
        exact iht

theorem updateEvent_pendingUnique {db : CalDB} {userId eventId : Nat}
    {args : UpdateEventArgs} {now : Int} {db' : CalDB} {r : UpdateResult}
    (hinv : PendingUnique db) (h : updateEvent db userId eventId args now = .ok (db', r)) :
    PendingUnique db' := by
  unfold updateEvent at h
  cases hu : lookupA db.users userId with
  | none => rw [hu] at h; simp at h
  | some u =>
    rw [hu] at h
    dsimp only [] at h
    cases he : lookupA db.events eventId with
    | none => rw [he] at h; simp at h
    | some event =>
      rw [he] at h
      dsimp only [] at h
      by_cases hown : event.userId ≠ userId
      · rw [if_pos hown] at h; simp at h
      · rw [if_neg hown] at h
        cases hmid : event.meetingRequestId with
        | some mid =>
          rw [hmid] at h
          dsimp only [] at h
          cases hmr : lookupA db.meetingRequests mid with
          | none => rw [hmr] at h; simp at h
          | some mr =>
            rw [hmr] at h
            dsimp only [] at h
            cases hfind : db.updateRequests.find?
                (fun p => p.2.meetingRequestId = mid ∧ p.2.status = .pending) with
            | some x => rw [hfind] at h; simp at h
            | none =>
              rw [hfind] at h
              dsimp only [] at h
              split at h
              · simp at h
              · split at h
                · simp at h
                · simp only [Except.ok.injEq, Prod.mk.injEq] at h
                  obtain ⟨hdb, -⟩ := h
                  subst hdb
                  intro m
                  unfold pendingUpdateCount
                  dsimp only []
                  rw [List.filter_append, List.length_append]
                  by_cases hm : m = mid
                  · subst hm
                    rw [List.find?_eq_none] at hfind
                    have hnil : db.updateRequests.filter
                        (fun p => p.2.meetingRequestId = m ∧ p.2.status = .pending) = [] := by
                      rw [List.filter_eq_nil_iff]
                      exact fun a ha => hfind a ha
                    rw [hnil]
                    simp
                  · have hnil2 : List.filter
                        (fun p => p.2.meetingRequestId = m ∧ p.2.status = .pending)
                        ([((db.nextId : Nat), ({ meetingRequestId := mid, requestedByUserId := userId, respondentUserId := (if mr.requesterId = userId then mr.recipientId else mr.requesterId), proposedTitle := mergedTitle args event, proposedDescription := (match args.description with | some d => some (strTrim d) | none => event.description), proposedStartTime := args.startTime.getD event.startTime, proposedEndTime := args.endTime.getD event.endTime, proposedIsAllDay := args.isAllDay.getD event.isAllDay, proposedIsPublic := args.isPublic.getD event.isPublic, status := .pending, createdAt := now } : MeetingUpdateRequest))]) = [] := by
                      simp [Ne.symm hm]
                    rw [hnil2, List.length_nil]
                    have hiv := hinv m
                    unfold pendingUpdateCount at hiv
                    omega
        | none =>
          rw [hmid] at h
          dsimp only [] at h
          split at h
          · simp at h
          · split at h
            · simp at h
            · simp only [Except.ok.injEq, Prod.mk.injEq] at h
              obtain ⟨hdb, -⟩ := h
              subst hdb
              exact fun m => hinv m

theorem respondToMeetingUpdate_pendingUnique {db : CalDB} {userId updateRequestId : Nat}
    {st : Decision} {msg : Option String} {now : Int} {db' : CalDB} {r : Nat}
    (hinv : PendingUnique db)
    (h : respondToMeetingUpdate db userId updateRequestId st msg now = .ok (db', r)) :
    PendingUnique db' := by
  unfold respondToMeetingUpdate at h
  cases hur : lookupA db.updateRequests updateRequestId with
  | none => rw [hur] at h; simp at h
  | some ur =>
    rw [hur] at h
    dsimp only [] at h
    by_cases h1 : ur.respondentUserId ≠ userId
    · rw [if_pos h1] at h; simp at h
    · rw [if_neg h1] at h
      by_cases h2 : ur.status ≠ .pending
      · rw [if_pos h2] at h; simp at h
      · rw [if_neg h2] at h
        have key : ∀ (l : List (Nat × MeetingUpdateRequest)) (m : Nat),
            (List.filter (fun p => p.2.meetingRequestId = m ∧ p.2.status = .pending)
              (setA l updateRequestId
                ({ ur with
                   status := st.toStatus
                   responseMessage := msg.map strTrim
                   respondedAt := some now }))).length ≤
            (List.filter (fun p => p.2.meetingRequestId = m ∧ p.2.status = .pending) l).length := by
          intro l m
          unfold setA mapVals
          apply length_filter_map_le
          intro x hx hpx
          dsimp only [] at hpx
          by_cases hxk : x.1 = updateRequestId
          · exfalso
            rw [if_pos hxk] at hpx
            cases st <;> simp [Decision.toStatus] at hpx
          · rw [if_neg hxk] at hpx
            exact hpx
        cases st with
        | approved =>
          simp only [Except.ok.injEq, Prod.mk.injEq] at h
          obtain ⟨hdb, -⟩ := h
          subst hdb
          intro m
          exact le_trans (key _ m) (hinv m)
        | denied =>
          simp only [Except.ok.injEq, Prod.mk.injEq] at h
          obtain ⟨hdb, -⟩ := h
          subst hdb
          intro m
          exact le_trans (key _ m) (hinv m)

/-- C5: at most one `pending` `MeetingUpdateRequest` exists per
`meetingRequestId` at any time — `updateEvent` on a linked event refuses
with a descriptive error whenever a pending update request already exists
for that meeting, so a second edit attempt is rejected rather than queued;
and both `updateEvent` and `respondToMeetingUpdate` preserve the
at-most-one-pending invariant on success. -/
theorem c5_pending_unique (db : CalDB) (userId eventId : Nat)
    (args : UpdateEventArgs) (now : Int) (event : CalendarEvent) (mid : Nat) :
    ((∃ u, lookupA db.users userId = some u) →
     lookupA db.events eventId = some event →
     event.userId = userId →
     event.meetingRequestId = some mid →
     (∃ mr, lookupA db.meetingRequests mid = some mr) →
     (∃ q ∈ db.updateRequests, q.2.meetingRequestId = mid ∧ q.2.status = .pending) →
     updateEvent db userId eventId args now =
       .error "You already have a pending update request for this meeting. Wait for the other participant to approve or deny it.") ∧
    (∀ db' r, PendingUnique db → updateEvent db userId eventId args now = .ok (db', r) →
      PendingUnique db') ∧
    (∀ uid urid st m db' r2, PendingUnique db →
      respondToMeetingUpdate db uid urid st m now = .ok (db', r2) → PendingUnique db') := by
  refine ⟨?_, fun db' r hinv h => updateEvent_pendingUnique hinv h,
    fun uid urid st m db' r2 hinv h => respondToMeetingUpdate_pendingUnique hinv h⟩
  rintro ⟨u, hu⟩ he hown hm ⟨mr, hmr⟩ ⟨q, hqmem, hqmid, hqp⟩
  unfold updateEvent
  rw [hu]
  dsimp only []
  rw [he]
  dsimp only []
  rw [if_neg (by simp [hown]), hm]
  dsimp only []
  rw [hmr]
  dsimp only []
  cases hfind : db.updateRequests.find?
      (fun p => p.2.meetingRequestId = mid ∧ p.2.status = .pending) with
  | none =>
    rw [List.find?_eq_none] at hfind
    exact absurd (by simp [hqmid, hqp]) (hfind q hqmem)
  | some x => rfl

/-- Witness for C5: on `exCal` (pending update request 700 outstanding) a
second edit of event 600 is refused with the descriptive error; on `exCal2`
(nothing outstanding) a successful edit keeps the invariant, as does
approving request 700 on `exCal`. -/
theorem c5_witness :
    (updateEvent exCal 20 600 ({ startTime := some 150, endTime := some 250 }) 9 =
      .error "You already have a pending update request for this meeting. Wait for the other participant to approve or deny it.") ∧
    (∃ db' r, updateEvent exCal2 20 600 ({ startTime := some 150, endTime := some 250 }) 9 =
      .ok (db', r) ∧ PendingUnique db') ∧
    (∃ db' r2, respondToMeetingUpdate exCal 21 700 .approved none 9 = .ok (db', r2) ∧
      PendingUnique db') := by
  have hpu2 : PendingUnique exCal2 := fun m => by
    unfold pendingUpdateCount
    simp [exCal2]
  have hpu : PendingUnique exCal := fun m => List.length_filter_le _ _
  refine ⟨?_, ?_, ?_⟩
  · exact (c5_pending_unique exCal 20 600
      ({ startTime := some 150, endTime := some 250 }) 9 exEvReq 501).1
      ⟨({ email := "a at x" }), by decide⟩ (by decide) (by decide) (by decide)
      ⟨exReqApproved, by decide⟩ ⟨(700, exUpdPending), by decide, rfl, rfl⟩
  · exact ⟨_, _, rfl, (c5_pending_unique exCal2 20 600
      ({ startTime := some 150, endTime := some 250 }) 9 exEvReq 501).2.1 _ _ hpu2 rfl⟩
  · exact ⟨_, _, rfl, (c5_pending_unique exCal 20 600
      ({ startTime := some 150, endTime := some 250 }) 9 exEvReq 501).2.2
      21 700 .approved none _ _ hpu rfl⟩

/-- C6: `startTime < endTime` holds for every event a successful
`createEvent` inserts and every event a successful solo `updateEvent`
patches; `createEvent` and `updateEvent` (solo and linked path alike)
reject a (merged) end time not strictly after the start time with an error
— and an erroring handler performs no write, leaving the event unchanged;
every update request a successful linked `updateEvent` inserts is
well-ordered, and approving a well-ordered update request leaves every
event linked to its meeting well-ordered. -/
theorem c6_time_invariant (db : CalDB) (userId eventId : Nat)
    (cargs : CreateEventArgs) (uargs : UpdateEventArgs) (now : Int) :
    (∀ db' eid, createEvent db userId cargs now = .ok (db', eid) →
      lookupA db.events eid = none →
      ∃ ev, lookupA db'.events eid = some ev ∧ ev.startTime < ev.endTime) ∧
    ((∃ u, lookupA db.users userId = some u) → cargs.endTime ≤ cargs.startTime →
      createEvent db userId cargs now = .error "End time must be after start time") ∧
    (∀ db' eid2, updateEvent db userId eventId uargs now = .ok (db', .applied eid2) →
      ∃ ev, lookupA db'.events eid2 = some ev ∧ ev.startTime < ev.endTime) ∧
    (∀ event, (∃ u, lookupA db.users userId = some u) →
      lookupA db.events eventId = some event → event.userId = userId →
      event.meetingRequestId = none →
      (∀ s, uargs.title = some s → (strTrim s).length ≠ 0) →
      uargs.endTime.getD event.endTime ≤ uargs.startTime.getD event.startTime →
      updateEvent db userId eventId uargs now = .error "End time must be after start time") ∧
    (∀ event mid mr, (∃ u, lookupA db.users userId = some u) →
      lookupA db.events eventId = some event → event.userId = userId →
      event.meetingRequestId = some mid →
      lookupA db.meetingRequests mid = some mr →
      db.updateRequests.find?
        (fun p => p.2.meetingRequestId = mid ∧ p.2.status = .pending) = none →
      (mergedTitle uargs event).length ≠ 0 →
      uargs.endTime.getD event.endTime ≤ uargs.startTime.getD event.startTime →
      updateEvent db userId eventId uargs now = .error "End time must be after start time") ∧
    (∀ db' msg k ur, updateEvent db userId eventId uargs now = .ok (db', .requiresApproval msg) →
      lookupA db.updateRequests k = none → lookupA db'.updateRequests k = some ur →
      ur.proposedStartTime < ur.proposedEndTime) ∧
    (∀ uid urid m db' r ur, lookupA db.updateRequests urid = some ur →
      ur.proposedStartTime < ur.proposedEndTime →
      respondToMeetingUpdate db uid urid .approved m now = .ok (db', r) →
      ∀ eid3 ev, lookupA db'.events eid3 = some ev →
        ev.meetingRequestId = some ur.meetingRequestId →
        ev.startTime < ev.endTime) := by
  refine ⟨?_, ?_, ?_, ?_, ?_, ?_, ?_⟩
  · intro db' eid h hfresh
    unfold createEvent at h
    cases hu : lookupA db.users userId with
    | none => rw [hu] at h; simp at h
    | some u =>
      rw [hu] at h
      dsimp only [] at h
      split at h
      · simp at h
      next ht =>
        split at h
        · simp at h
        · simp only [Except.ok.injEq, Prod.mk.injEq] at h
          obtain ⟨hdb, heid⟩ := h
          subst hdb
          subst heid
          refine ⟨({ userId := userId, title := strTrim cargs.title, description := Option.map strTrim cargs.description, startTime := cargs.startTime, endTime := cargs.endTime, isAllDay := cargs.isAllDay.getD false, isPublic := cargs.isPublic.getD false, meetingRequestId := none, createdAt := now, updatedAt := none } : CalendarEvent), ?_, ?_⟩
          · rw [lookupA_append_none hfresh]
            simp [lookupA]
          · exact lt_of_not_le ht
  · rintro ⟨u, hu⟩ hle
    unfold createEvent
    rw [hu]
    dsimp only []
    rw [if_pos hle]
  · intro db' eid2 h
    unfold updateEvent at h
    cases hu : lookupA db.users userId with
    | none => rw [hu] at h; simp at h
    | some u =>
      rw [hu] at h
      dsimp only [] at h
      cases he : lookupA db.events eventId with
      | none => rw [he] at h; simp at h
      | some event =>
        rw [he] at h
        dsimp only [] at h
        by_cases hown : event.userId ≠ userId
        · rw [if_pos hown] at h; simp at h
        · rw [if_neg hown] at h
          cases hmid : event.meetingRequestId with
          | some mid =>
            rw [hmid] at h
            dsimp only [] at h
            cases hmr : lookupA db.meetingRequests mid with
            | none => rw [hmr] at h; simp at h
            | some mr =>
              rw [hmr] at h
              dsimp only [] at h
              cases hfind : db.updateRequests.find?
                  (fun p => p.2.meetingRequestId = mid ∧ p.2.status = .pending) with
              | some x => rw [hfind] at h; simp at h
              | none =>
                rw [hfind] at h
                dsimp only [] at h
                split at h
                · simp at h
                · split at h
                  · simp at h
                  · simp at h
          | none =>
            rw [hmid] at h
            dsimp only [] at h
            split at h
            · simp at h
            · split at h
              · simp at h
              next htime =>
                simp only [Except.ok.injEq, Prod.mk.injEq, UpdateResult.applied.injEq] at h
                obtain ⟨hdb, heid⟩ := h
                subst hdb
                subst heid
                exact ⟨_, lookupA_setA_self _ _ _ _ he, lt_of_not_le htime⟩
  · rintro event ⟨u, hu⟩ he hown hmid htitle hle
    unfold updateEvent
    rw [hu]
    dsimp only []
    rw [he]
    dsimp only []
    rw [if_neg (by simp [hown]), hmid]
    dsimp only []
    have hte : (match uargs.title with
        | some s => (strTrim s).length == 0
        | none => false) = false := by
      cases harg : uargs.title with
      | none => rfl
      | some s => simpa using htitle s harg
    rw [if_neg (by simp [hte]), if_pos hle]
  · rintro event mid mr ⟨u, hu⟩ he hown hmid hmr hfind htitle hle
    unfold updateEvent
    rw [hu]
    dsimp only []
    rw [he]
    dsimp only []
    rw [if_neg (by simp [hown]), hmid]
    dsimp only []
    rw [hmr]
    dsimp only []
    rw [hfind]
    dsimp only []
    rw [if_neg htitle, if_pos hle]
  · intro db' msg k ur h hkold hknew
    unfold updateEvent at h
    cases hu : lookupA db.users userId with
    | none => rw [hu] at h; simp at h
    | some u =>
      rw [hu] at h
      dsimp only [] at h
      cases he : lookupA db.events eventId with
      | none => rw [he] at h; simp at h
      | some event =>
        rw [he] at h
        dsimp only [] at h
        by_cases hown : event.userId ≠ userId
        · rw [if_pos hown] at h; simp at h
        · rw [if_neg hown] at h
          cases hmid : event.meetingRequestId with
          | some mid =>
            rw [hmid] at h
            dsimp only [] at h
            cases hmr : lookupA db.meetingRequests mid with
            | none => rw [hmr] at h; simp at h
            | some mr =>
              rw [hmr] at h
              dsimp only [] at h
              cases hfind : db.updateRequests.find?
                  (fun p => p.2.meetingRequestId = mid ∧ p.2.status = .pending) with
              | some x => rw [hfind] at h; simp at h
              | none =>
                rw [hfind] at h
                dsimp only [] at h
                split at h
                · simp at h
                · split at h
                  · simp at h
                  next htime =>
                    simp only [Except.ok.injEq, Prod.mk.injEq] at h
                    obtain ⟨hdb, -⟩ := h
                    subst hdb
                    rw [lookupA_append_none hkold] at hknew
                    simp only [lookupA] at hknew
                    split at hknew
                    · cases Option.some.inj hknew
                      exact lt_of_not_le htime
                    · simp at hknew
          | none =>
            rw [hmid] at h
            dsimp only [] at h
            split at h
            · simp at h
            · split at h
              · simp at h
              · simp only [Except.ok.injEq, Prod.mk.injEq] at h
                obtain ⟨hdb, -⟩ := h
                subst hdb
                rw [hkold] at hknew
                simp at hknew
  · intro uid urid m db' r ur hur hord h eid3 ev hev hmid2
    unfold respondToMeetingUpdate at h
    rw [hur] at h
    dsimp only [] at h
    by_cases h1 : ur.respondentUserId ≠ uid
    · rw [if_pos h1] at h; simp at h
    · rw [if_neg h1] at h
      by_cases h2 : ur.status ≠ .pending
      · rw [if_pos h2] at h; simp at h
      · rw [if_neg h2] at h
        simp only [Except.ok.injEq, Prod.mk.injEq] at h
        obtain ⟨hdb, -⟩ := h
        subst hdb
        rw [lookupA_mapVals] at hev
        cases h0 : lookupA db.events eid3 with
        | none => rw [h0] at hev; simp at hev
        | some ev0 =>
          rw [h0] at hev
          simp only [Option.map_some'] at hev
          cases Option.some.inj hev
          by_cases hcond : ev0.meetingRequestId = some ur.meetingRequestId
          · rw [if_pos hcond] at hmid2 ⊢
            exact hord
          · rw [if_neg hcond] at hmid2
            exact absurd hmid2 hcond

/-- Witness for C6: concrete instances of every conjunct — a successful
create stores an ordered event, a reversed range is rejected on create and
on both update paths, a successful solo update stays ordered, a successful
linked update inserts an ordered update request, and approving request 700
leaves the linked event 600 ordered. -/
theorem c6_witness :
    (∃ db' eid, createEvent exCal3 20
        ({ title := "New", startTime := 5, endTime := 6 }) 9 = .ok (db', eid) ∧
      ∃ ev, lookupA db'.events eid = some ev ∧ ev.startTime < ev.endTime) ∧
    (createEvent exCal3 20 ({ title := "New", startTime := 6, endTime := 5 }) 9 =
      .error "End time must be after start time") ∧
    (∃ db', updateEvent exCal3 20 610 ({ startTime := some 10, endTime := some 20 }) 9 =
        .ok (db', .applied 610) ∧
      ∃ ev, lookupA db'.events 610 = some ev ∧ ev.startTime < ev.endTime) ∧
    (updateEvent exCal3 20 610 ({ startTime := some 30, endTime := some 20 }) 9 =
      .error "End time must be after start time") ∧
    (updateEvent exCal2 20 600 ({ startTime := some 30, endTime := some 20 }) 9 =
      .error "End time must be after start time") ∧
    (∃ db' msg ur, updateEvent exCal2 20 600
        ({ startTime := some 150, endTime := some 250 }) 9 = .ok (db', .requiresApproval msg) ∧
      lookupA exCal2.updateRequests 800 = none ∧
      lookupA db'.updateRequests 800 = some ur ∧
      ur.proposedStartTime < ur.proposedEndTime) ∧
    (∃ db' r ev, respondToMeetingUpdate exCal 21 700 .approved none 9 = .ok (db', r) ∧
      lookupA db'.events 600 = some ev ∧
      ev.meetingRequestId = some exUpdPending.meetingRequestId ∧
      ev.startTime < ev.endTime) := by
  refine ⟨?_, ?_, ?_, ?_, ?_, ?_, ?_⟩
  · exact ⟨_, 800, rfl, (c6_time_invariant exCal3 20 610
      ({ title := "New", startTime := 5, endTime := 6 }) ({}) 9).1 _ 800 rfl (by decide)⟩
  · exact (c6_time_invariant exCal3 20 610
      ({ title := "New", startTime := 6, endTime := 5 }) ({}) 9).2.1
      ⟨({ email := "a at x" }), by decide⟩ (by decide)
  · exact ⟨_, rfl, (c6_time_invariant exCal3 20 610 ({ title := "x", startTime := 0, endTime := 1 })
      ({ startTime := some 10, endTime := some 20 }) 9).2.2.1 _ 610 rfl⟩
  · exact (c6_time_invariant exCal3 20 610 ({ title := "x", startTime := 0, endTime := 1 })
      ({ startTime := some 30, endTime := some 20 }) 9).2.2.2.1
      ({ userId := 20, title := "Solo", startTime := 100, endTime := 200,
         isAllDay := false, isPublic := false, createdAt := 2 })
      ⟨({ email := "a at x" }), by decide⟩ (by decide) (by decide) (by decide)
      (fun s hs => Option.noConfusion hs) (by decide)
  · exact (c6_time_invariant exCal2 20 600 ({ title := "x", startTime := 0, endTime := 1 })
      ({ startTime := some 30, endTime := some 20 }) 9).2.2.2.2.1
      exEvReq 501 exReqApproved ⟨({ email := "a at x" }), by decide⟩ (by decide) (by decide)
      (by decide) (by decide) (by decide) (by decide) (by decide)
  · exact ⟨_, _, _, rfl, rfl, rfl, (c6_time_invariant exCal2 20 600
      ({ title := "x", startTime := 0, endTime := 1 })
      ({ startTime := some 150, endTime := some 250 }) 9).2.2.2.2.2.1 _ _ 800 _ rfl (by decide) rfl⟩
  · exact ⟨_, _, _, rfl, rfl, rfl, (c6_time_invariant exCal 20 600
      ({ title := "x", startTime := 0, endTime := 1 }) ({}) 9).2.2.2.2.2.2
      21 700 none _ _ exUpdPending (by decide) (by decide) rfl 600 _ rfl rfl⟩
